import Mathlib

/-!
Shallow embedding of `Desktop/amazon_profit_calculator.py`.

Money amounts use `ℚ` (the source uses Python `Decimal`, whose addition,
subtraction, multiplication and comparisons are exact on the magnitudes
occurring here; we model its arithmetic as exact rational arithmetic).
Python exceptions (`InvalidOperation` from a failed `Decimal(...)` parse,
the explicit `ValueError` for a missing tier, `IndexError` from `[0]` on an
empty list) are modelled with `Except PyError`.
-/

namespace AmazonCalc

/-- Python exceptions that the modelled code can raise. -/
inductive PyError where
  /-- Python `decimal.InvalidOperation`: the string is not a parseable decimal. -/
  | invalidDecimal (s : String)
  /-- The `ValueError("適用可能な手数料率が見つかりません")` raised by
  `_calculate_tiered_fee` when no tier condition holds. -/
  | noApplicableTier
  /-- Python `IndexError` from indexing `[0]` into an empty list. -/
  | indexError
  deriving DecidableEq, Repr

/-! ## String helpers modelling the Python string operations used -/

/-- Tests whether `needle` occurs as a contiguous sublist of `hay`. -/
def subList (needle : List Char) : List Char → Bool
  | [] => needle.isEmpty
  | c :: rest => needle.isPrefixOf (c :: rest) || subList needle rest

/-- Python `needle in hay` on strings: substring containment of code points. -/
def strContains (hay needle : String) : Bool :=
  subList needle.data hay.data

/-- Python `s.strip(c)` for a single-character strip set: remove every
leading and trailing occurrence of `c`. -/
def stripChar (c : Char) (s : String) : String :=
  ⟨((s.data.dropWhile (· = c)).reverse.dropWhile (· = c)).reverse⟩

/-- Python `s.replace(c, "")` for a single character: drop all occurrences. -/
def removeAll (c : Char) (s : String) : String :=
  ⟨s.data.filter (· ≠ c)⟩

/-- Python `s.split(c)[0]`: the part of `s` before the first occurrence of
`c` (all of `s` when `c` does not occur). -/
def beforeFirst (c : Char) (s : String) : String :=
  ⟨s.data.takeWhile (· ≠ c)⟩

/-- Python `s.split(c)[-1]`: the part of `s` after the last occurrence of
`c` (all of `s` when `c` does not occur). -/
def afterLast (c : Char) (s : String) : String :=
  ⟨(s.data.reverse.takeWhile (· ≠ c)).reverse⟩

/-- Value of a list of ASCII digit characters read in base 10. -/
def digitsToNat (cs : List Char) : Nat :=
  cs.foldl (fun n c => n * 10 + (c.toNat - 48)) 0

/-- Python `Decimal(s)` on the plain decimal forms occurring in the fee
schedule: optional sign, integer digits, optional fractional part.  Returns
`none` (modelling `decimal.InvalidOperation`) on anything else.  (The exotic
`Decimal` inputs — exponents, `NaN`, `Infinity`, embedded whitespace — do not
occur in this program's data and are not modelled.) -/
def parseDecimal (s : String) : Option ℚ :=
  let (sign, cs) : ℚ × List Char :=
    match s.data with
    | '-' :: rest => (-1, rest)
    | '+' :: rest => (1, rest)
    | cs => (1, cs)
  let intPart := cs.takeWhile Char.isDigit
  let rest := cs.dropWhile Char.isDigit
  match rest with
  | [] =>
    if intPart.isEmpty then none
    else some (sign * (digitsToNat intPart : ℚ))
  | '.' :: frac =>
    if frac.all Char.isDigit && !(intPart.isEmpty && frac.isEmpty) then
      some (sign * ((digitsToNat intPart : ℚ) +
        (digitsToNat frac : ℚ) / (10 ^ frac.length : ℚ)))
    else none
  | _ => none

/-- Wraps `Decimal(s)` as an `Except` computation: a failed parse raises. -/
def toDec (s : String) : Except PyError ℚ :=
  match parseDecimal s with
  | some q => .ok q
  | none => .error (.invalidDecimal s)

/-! ## The fee schedule data model (`amazon_fee_structure.json` as loaded) -/

/-- One tier descriptor `{condition, rate}` of a tiered `fee_rate`. -/
structure TierRaw where
  condition : String
  rate : String
  deriving DecidableEq, Repr

/-- The `fee_rate` field of a rule: either a percentage string or a list of
tier descriptors (the code branches on `isinstance(cat['fee_rate'], str)`). -/
inductive RateField where
  | str (s : String)
  | tiers (ts : List TierRaw)
  deriving DecidableEq, Repr

/-- One entry of the `fee_structure` list. -/
structure FeeRule where
  category : String
  fee_rate : RateField
  minimum_fee : String
  deriving DecidableEq, Repr

/-- The whole policy document as loaded by `json.load`. -/
structure FeeStructure where
  fee_structure : List FeeRule
  default_fee_rate : String
  default_minimum_fee : String
  deriving DecidableEq, Repr

/-- Load-time errors of `AmazonFeeCalculator.__init__`.  `malformedPolicy`
is the error the spec says the loader reports; the model shows it never does. -/
inductive LoadError where
  | malformedPolicy (msg : String)
  deriving DecidableEq, Repr

/-- Models `AmazonFeeCalculator.__init__`: reads the file and calls `json.load`.
The argument models the already-JSON-parsed document; beyond JSON parsing the
constructor performs no validation whatsoever, so loading always succeeds. -/
def load (doc : FeeStructure) : Except LoadError FeeStructure :=
  .ok doc

/-! ## The fee engine -/

/-- The threshold embedded in a tier condition string:
`condition.split('円')[0].split('が')[-1].replace(',', '')` fed to `Decimal`. -/
def tierThreshold (condition : String) : Except PyError ℚ :=
  toDec (removeAll ',' (afterLast 'が' (beforeFirst '円' condition)))

/-- Models `AmazonFeeCalculator._calculate_tiered_fee`: scan tiers in order; a
condition containing `円以下` applies when `price ≤ threshold`, else one
containing `円を超える` applies when `price > threshold`; the first applicable
tier returns `price * rate / 100`; exhaustion raises the no-tier error. -/
def _calculate_tiered_fee (price : ℚ) : List TierRaw → Except PyError ℚ
  | [] => .error .noApplicableTier
  | t :: rest =>
    if strContains t.condition "円以下" then
      match tierThreshold t.condition with
      | .error e => .error e
      | .ok threshold =>
        if price ≤ threshold then
          (toDec (stripChar '%' t.rate)).map (fun r => price * r / 100)
        else _calculate_tiered_fee price rest
    else if strContains t.condition "円を超える" then
      match tierThreshold t.condition with
      | .error e => .error e
      | .ok threshold =>
        if threshold < price then
          (toDec (stripChar '%' t.rate)).map (fun r => price * r / 100)
        else _calculate_tiered_fee price rest
    else _calculate_tiered_fee price rest

/-- The matching test of the rule-selection loop:
`cat['category'].lower() in category.lower()` — the rule's lower-cased
category as a substring of the product's lower-cased category. -/
def ruleMatches (category : String) (r : FeeRule) : Bool :=
  strContains category.toLower r.category.toLower

/-- The body of the loop once a rule is selected: flat or tiered fee, then
the minimum-fee floor (`該当なし` means no minimum, i.e. `0`). -/
def ruleFee (price : ℚ) (cat : FeeRule) : Except PyError ℚ := do
  let fee ← match cat.fee_rate with
    | .str s => do
      let rate ← toDec (stripChar '%' s)
      pure (price * (rate / 100))
    | .tiers ts => _calculate_tiered_fee price ts
  let minimum_fee ←
    if cat.minimum_fee = "該当なし" then pure (0 : ℚ)
    else toDec (removeAll '円' cat.minimum_fee)
  pure (max fee minimum_fee)

/-- The default path (no rule matched):
`max(price * default_fee_rate, default_minimum_fee)`. -/
def defaultFee (fs : FeeStructure) (price : ℚ) : Except PyError ℚ := do
  let default_rate ← toDec (stripChar '%' fs.default_fee_rate)
  let default_minimum_fee ← toDec (removeAll '円' fs.default_minimum_fee)
  pure (max (price * (default_rate / 100)) default_minimum_fee)

/-- Models `AmazonFeeCalculator.calculate_fees`: first rule whose category matches
wins; otherwise the default rate and default minimum fee apply. -/
def calculate_fees (fs : FeeStructure) (price : ℚ) (category : String) :
    Except PyError ℚ :=
  match fs.fee_structure.find? (ruleMatches category) with
  | some cat => ruleFee price cat
  | none => defaultFee fs price

/-! ## Rounding and the profit calculator -/

/-- Floor of a rational, computed from numerator and denominator. -/
def qfloor (q : ℚ) : ℤ :=
  Int.fdiv q.num q.den

/-- Round to the nearest integer, ties to even — the rounding of Python's
`round` builtin (and of `Decimal` under the default context). -/
def roundHalfEvenInt (q : ℚ) : ℤ :=
  let f := qfloor q
  if q - f < 1 / 2 then f
  else if (1 : ℚ) / 2 < q - f then f + 1
  else if f % 2 = 0 then f else f + 1

/-- Python `round(x, 2)`: round to two decimal places, ties to even. -/
def round2 (q : ℚ) : ℚ :=
  (roundHalfEvenInt (q * 100) : ℚ) / 100

/-- The dictionary returned by `calculate_profit`. -/
structure ProfitReport where
  selling_price : ℚ
  purchase_price : ℚ
  fees : ℚ
  profit : ℚ
  profit_margin : ℚ
  deriving DecidableEq, Repr

/-- Models `calculate_profit`: resolve the fee, then
`profit = selling_price - purchase_price - fees` and
`profit_margin = round(profit / selling_price * 100, 2)` when
`selling_price > 0`, else `0`. -/
def calculate_profit (fs : FeeStructure) (selling_price purchase_price : ℚ)
    (category : String) : Except PyError ProfitReport := do
  let fees ← calculate_fees fs selling_price category
  let profit := selling_price - purchase_price - fees
  pure { selling_price, purchase_price, fees, profit,
         profit_margin :=
           if 0 < selling_price then round2 (profit / selling_price * 100)
           else 0 }

/-! ## Product records, the Keepa client and the cache -/

/-- One node of a `categoryTree`/`categories` list: a JSON object whose
`name` key may be absent. -/
structure CatNode where
  name : Option String
  deriving DecidableEq, Repr

/-- A raw product object of the Keepa API response.  `none` fields model
absent JSON keys (each access in the code goes through `.get` with a
default). -/
structure RawApiProduct where
  title : Option String
  asin : Option String
  brand : Option String
  categoryTree : Option (List CatNode)
  csv : Option (List (List Int))
  rating : Option Int
  reviewCount : Option Int
  deriving DecidableEq, Repr

/-- Models `AsyncKeepaAPI.get_current_price`: needs `csv` truthy with at least two
rows and a non-empty second row; the last entry of that row is the current
price, but non-positive values are treated as unavailable (`None`). -/
def get_current_price (csv : List (List Int)) : Option Int :=
  match csv with
  | _ :: row1 :: _ =>
    match row1.getLast? with
    | some current_price =>
      if 0 < current_price then some current_price else none
    | none => none
  | _ => none

/-- The dictionary built by `AsyncKeepaAPI.extract_product_info`; `none` in
`title`/`asin`/`brand`/`rating`/`review_count` stands for the `"N/A"`
default the code substitutes for an absent key. -/
structure ProductInfo where
  title : Option String
  asin : Option String
  brand : Option String
  categories : Option (List CatNode)
  current_price : Option Int
  rating : Option Int
  review_count : Option Int
  deriving DecidableEq, Repr

/-- Models `AsyncKeepaAPI.extract_product_info`. -/
def extract_product_info (p : RawApiProduct) : ProductInfo :=
  { title := p.title
    asin := p.asin
    brand := p.brand
    categories := some (p.categoryTree.getD [])
    current_price := get_current_price (p.csv.getD [])
    rating := p.rating
    review_count := p.reviewCount }

/-- Models `AsyncKeepaAPI.get_product_details`: the argument models the parsed API
response — `none` for a transport error or a response without a `products`
key, `some ps` for a response with product list `ps`.  A non-empty list is
mapped through `extract_product_info`; otherwise the empty list is
returned. -/
def get_product_details (resp : Option (List RawApiProduct)) :
    List ProductInfo :=
  match resp with
  | some (p :: ps) => (p :: ps).map extract_product_info
  | _ => []

/-- A value decoded from the cache: either a JSON object of product shape
(the only thing `save_product` ever stores) or something else (the
defensive `isinstance(product, dict)` branch). -/
inductive RawProduct where
  | dict (p : ProductInfo)
  | other
  deriving DecidableEq, Repr

/-- The `products` table of `Database`: a finite map from the `jan` primary
key to the stored record. -/
def Db : Type := String → Option RawProduct

/-- Models `Database.get_product`: look the key up (decoding always succeeds in the
model since the table stores structured records). -/
def get_product (db : Db) (jan : String) : Option RawProduct :=
  db jan

/-- Models `Database.save_product`: `INSERT OR REPLACE` under the given key. -/
def save_product (db : Db) (jan : String) (data : RawProduct) : Db :=
  fun k => if k = jan then some data else db k

/-! ## Per-product orchestration (`process_product`) -/

/-- Models `product.get("categories", [\x7b\x7d])[0].get("name", "その他")`: an absent
`categories` key defaults to `[{}]`; indexing `[0]` into an empty list
raises `IndexError`; an absent `name` defaults to `"その他"`. -/
def categoryOf (categories : Option (List CatNode)) : Except PyError String :=
  match categories.getD [⟨none⟩] with
  | [] => .error .indexError
  | c :: _ => .ok (c.name.getD "その他")

/-- One record of the list returned by `process_product`. -/
inductive ProcResult where
  /-- Success record `\x7b**product, **profit_info\x7d`. -/
  | success (product : ProductInfo) (report : ProfitReport)
  /-- Error record carrying the product attributes, the message 現在価格が取得できません and the purchase price. -/
  | errorNoPrice (product : ProductInfo) (purchase_price : ℚ)
  /-- Error record carrying the jan code, the message 予期しない商品データ形式 and the purchase price. -/
  | errorBadShape (jan : String) (purchase_price : ℚ)
  deriving DecidableEq, Repr

/-- The body of the result loop of `process_product` for one product
record: non-dicts get the bad-shape record; a dict without a current price
gets the price-unavailable record; otherwise the profit is computed (any
exception from that propagates). -/
def processOne (fs : FeeStructure) (jan_code : String) (purchase_price : ℚ) :
    RawProduct → Except PyError ProcResult
  | .other => .ok (.errorBadShape jan_code purchase_price)
  | .dict product =>
    match product.current_price with
    | some cp => do
      let category ← categoryOf product.categories
      let profit_info ← calculate_profit fs (cp : ℚ) purchase_price category
      pure (.success product profit_info)
    | none => .ok (.errorNoPrice product purchase_price)

/-- The Python `for` loop over `product_details`: results are accumulated in
order and the first raised exception aborts the whole call. -/
def runAll (f : RawProduct → Except PyError ProcResult) :
    List RawProduct → Except PyError (List ProcResult)
  | [] => .ok []
  | p :: ps => do
    let r ← f p
    let rs ← runAll f ps
    pure (r :: rs)

/-- The cache-population loop of `process_product`: each fetched variant is
saved under the composite key `f"{jan_code}_{product['asin']}"` (an absent
`asin` was already defaulted to `"N/A"` by `extract_product_info`; the model
writes the defaulted string). -/
def cacheFetched (db : Db) (jan_code : String) : List ProductInfo → Db :=
  fun details =>
    details.foldl
      (fun d product =>
        save_product d (jan_code ++ "_" ++ (product.asin.getD "N/A"))
          (.dict product))
      db

/-- Models `process_product`: consult the cache under the bare `jan_code`; on a hit
process just the cached record, on a miss fetch (`resp` models the API
response), cache every variant under the composite key, and build one result
record per product record.  Returns the result list and the final cache
state. -/
def process_product (fs : FeeStructure) (db : Db)
    (resp : Option (List RawApiProduct)) (jan_code : String)
    (purchase_price : ℚ) : Except PyError (List ProcResult × Db) :=
  match get_product db jan_code with
  | some cached_product =>
    (runAll (processOne fs jan_code purchase_price) [cached_product]).map
      (fun rs => (rs, db))
  | none =>
    let product_details := get_product_details resp
    let db' := cacheFetched db jan_code product_details
    (runAll (processOne fs jan_code purchase_price)
        (product_details.map RawProduct.dict)).map
      (fun rs => (rs, db'))

/-! ## Statement vocabulary: when a tier condition holds or is skipped -/

/-- Expresses that a tier's threshold condition holds against `price`, per
the branch structure of `_calculate_tiered_fee`: the condition mentions
`円以下` and `price ≤ threshold`, or it mentions `円を超える` (and not
`円以下`) and `price > threshold`. -/
def tierAppliesB (price : ℚ) (t : TierRaw) : Bool :=
  if strContains t.condition "円以下" then
    match tierThreshold t.condition with
    | .ok threshold => decide (price ≤ threshold)
    | .error _ => false
  else if strContains t.condition "円を超える" then
    match tierThreshold t.condition with
    | .ok threshold => decide (threshold < price)
    | .error _ => false
  else false

/-- Expresses that `_calculate_tiered_fee` passes over a tier and keeps
scanning: its condition parses but does not hold against `price`, or it
mentions neither threshold phrase. -/
def tierSkipsB (price : ℚ) (t : TierRaw) : Bool :=
  if strContains t.condition "円以下" then
    match tierThreshold t.condition with
    | .ok threshold => decide (threshold < price)
    | .error _ => false
  else if strContains t.condition "円を超える" then
    match tierThreshold t.condition with
    | .ok threshold => decide (price ≤ threshold)
    | .error _ => false
  else true

/-! ## Concrete schedules used to instantiate the theorems -/

/-- A one-rule schedule with a flat-rate rule (the spec's worked example). -/
def oneRuleFs : FeeStructure :=
  ⟨[⟨"Electronics", .str "10%", "30円"⟩], "10%", "30円"⟩

/-- A schedule whose single rule has the spec's two-tier rate. -/
def bookTieredFs : FeeStructure :=
  ⟨[⟨"Books", .tiers [⟨"1000円以下", "8%"⟩, ⟨"1000円を超える", "15%"⟩],
     "該当なし"⟩], "10%", "0円"⟩

/-- A schedule whose tiered rule leaves a gap above 1000 yen. -/
def gapFs : FeeStructure :=
  ⟨[⟨"Books", .tiers [⟨"1000円以下", "8%"⟩], "該当なし"⟩], "10%", "0円"⟩

/-- A schedule whose rule carries an unparseable flat rate string. -/
def badRateFs : FeeStructure :=
  ⟨[⟨"Books", .str "abc%", "該当なし"⟩], "10%", "0円"⟩

/-- A one-rule schedule whose default rate differs from the rule rate, used
to separate the two matching directions. -/
def revFs : FeeStructure :=
  ⟨[⟨"Electronics", .str "10%", "該当なし"⟩], "5%", "0円"⟩

/-- A raw API product whose latest price entry is `0`, hence unavailable. -/
def rawNoPrice : RawApiProduct :=
  ⟨none, some "B01ABC", none, none, some [[], [0]], none, none⟩

end AmazonCalc

namespace AmazonCalc

/-! ## General lemmas about the embedded operations -/

theorem find?_of_forall_false {α : Type} (p : α → Bool) (l : List α)
    (h : ∀ x ∈ l, p x = false) : l.find? p = none := by
  rw [List.find?_eq_none]
  intro x hx
  simp [h x hx]

theorem find?_append_first {α : Type} (p : α → Bool) (l₁ l₂ : List α) (a : α)
    (h₁ : ∀ x ∈ l₁, p x = false) (h₂ : p a = true) :
    (l₁ ++ a :: l₂).find? p = some a := by
  induction l₁ with
  | nil => simp [List.find?_cons, h₂]
  | cons x xs ih =>
    have hx : p x = false := h₁ x (by simp)
    simp only [List.cons_append, List.find?_cons, hx]
    exact ih fun y hy => h₁ y (by simp [hy])

theorem tiered_skip_cons (price : ℚ) (t : TierRaw) (rest : List TierRaw)
    (h : tierSkipsB price t = true) :
    _calculate_tiered_fee price (t :: rest) = _calculate_tiered_fee price rest := by
  by_cases h1 : strContains t.condition "円以下"
  · cases hthr : tierThreshold t.condition with
    | error e => simp [tierSkipsB, h1, hthr] at h
    | ok threshold =>
      simp [tierSkipsB, h1, hthr] at h
      simp [_calculate_tiered_fee, h1, hthr, not_le.mpr h]
  · rw [Bool.not_eq_true] at h1
    by_cases h2 : strContains t.condition "円を超える"
    · cases hthr : tierThreshold t.condition with
      | error e => simp [tierSkipsB, h1, h2, hthr] at h
      | ok threshold =>
        simp [tierSkipsB, h1, h2, hthr] at h
        simp [_calculate_tiered_fee, h1, h2, hthr, not_lt.mpr h]
    · rw [Bool.not_eq_true] at h2
      simp [_calculate_tiered_fee, h1, h2]

theorem tiered_apply_cons (price : ℚ) (t : TierRaw) (rest : List TierRaw)
    (rp : ℚ) (ha : tierAppliesB price t = true)
    (hr : parseDecimal (stripChar '%' t.rate) = some rp) :
    _calculate_tiered_fee price (t :: rest) = .ok (price * rp / 100) := by
  by_cases h1 : strContains t.condition "円以下"
  · cases hthr : tierThreshold t.condition with
    | error e => simp [tierAppliesB, h1, hthr] at ha
    | ok threshold =>
      simp [tierAppliesB, h1, hthr] at ha
      simp [_calculate_tiered_fee, h1, hthr, ha, toDec, hr, Except.map]
  · rw [Bool.not_eq_true] at h1
    by_cases h2 : strContains t.condition "円を超える"
    · cases hthr : tierThreshold t.condition with
      | error e => simp [tierAppliesB, h1, h2, hthr] at ha
      | ok threshold =>
        simp [tierAppliesB, h1, h2, hthr] at ha
        simp [_calculate_tiered_fee, h1, h2, hthr, ha, toDec, hr, Except.map]
    · rw [Bool.not_eq_true] at h2
      simp [tierAppliesB, h1, h2] at ha

theorem tiered_all_skip (price : ℚ) (ts : List TierRaw)
    (h : ∀ t ∈ ts, tierSkipsB price t = true) :
    _calculate_tiered_fee price ts = .error .noApplicableTier := by
  induction ts with
  | nil => rfl
  | cons t rest ih =>
    rw [tiered_skip_cons price t rest (h t (by simp))]
    exact ih fun u hu => h u (by simp [hu])

theorem calculate_profit_ok (fs : FeeStructure) (sp pp : ℚ)
    (category : String) (f : ℚ)
    (h : calculate_fees fs sp category = .ok f) :
    calculate_profit fs sp pp category = .ok
      { selling_price := sp, purchase_price := pp, fees := f,
        profit := sp - pp - f,
        profit_margin :=
          if 0 < sp then round2 ((sp - pp - f) / sp * 100) else 0 } := by
  unfold calculate_profit
  rw [h]
  rfl

theorem calculate_profit_err (fs : FeeStructure) (sp pp : ℚ)
    (category : String) (e : PyError)
    (h : calculate_fees fs sp category = .error e) :
    calculate_profit fs sp pp category = .error e := by
  unfold calculate_profit
  rw [h]
  rfl

theorem key_ne (jan s : String) : jan ≠ jan ++ "_" ++ s := by
  intro h
  have hl := congrArg String.length h
  simp only [String.length_append] at hl
  have h1 : ("_" : String).length = 1 := rfl
  rw [h1] at hl
  omega

theorem runAll_length (f : RawProduct → Except PyError ProcResult)
    (l : List RawProduct) (rs : List ProcResult)
    (h : runAll f l = .ok rs) : rs.length = l.length := by
  induction l generalizing rs with
  | nil =>
    cases Except.ok.inj h
    rfl
  | cons p ps ih =>
    unfold runAll at h
    cases hf : f p with
    | error e =>
      rw [hf] at h
      exact Except.noConfusion h
    | ok r =>
      rw [hf] at h
      cases hrest : runAll f ps with
      | error e =>
        rw [hrest] at h
        exact Except.noConfusion h
      | ok rs' =>
        rw [hrest] at h
        cases Except.ok.inj h
        simp [ih rs' hrest]

theorem cacheFetched_bare_key (db : Db) (jan : String)
    (details : List ProductInfo) :
    get_product (cacheFetched db jan details) jan = get_product db jan := by
  induction details generalizing db with
  | nil => rfl
  | cons p ps ih =>
    show get_product
      (cacheFetched
        (save_product db (jan ++ "_" ++ (p.asin.getD "N/A")) (.dict p)) jan ps)
        jan = _
    rw [ih]
    unfold get_product save_product
    rw [if_neg (key_ne jan (p.asin.getD "N/A"))]

theorem processOne_dict_noPrice (fs : FeeStructure) (jan : String) (pp : ℚ)
    (product : ProductInfo) (h : product.current_price = none) :
    processOne fs jan pp (.dict product) = .ok (.errorNoPrice product pp) := by
  simp only [processOne, h]

theorem ruleFee_flat (price : ℚ) (rule : FeeRule) (s : String) (rp m : ℚ)
    (hflat : rule.fee_rate = .str s)
    (hrate : parseDecimal (stripChar '%' s) = some rp)
    (hmin : (rule.minimum_fee = "該当なし" ∧ m = 0) ∨
      (rule.minimum_fee ≠ "該当なし" ∧
        parseDecimal (removeAll '円' rule.minimum_fee) = some m)) :
    ruleFee price rule = .ok (max (price * (rp / 100)) m) := by
  rcases hmin with ⟨h1, h2⟩ | ⟨h1, h2⟩
  · subst h2
    simp [ruleFee, toDec, hflat, hrate, h1, Except.bind, pure, Except.pure]
    rfl
  · simp [ruleFee, toDec, hflat, hrate, h1, h2, Except.bind, pure, Except.pure]
    rfl

end AmazonCalc

namespace AmazonCalc

/-! ## The claims -/

/-- C1: for every price ≥ 0 and every category that selects (as first match
in schedule order) a rule with a flat percentage rate and a minimum fee,
`calculate_fees` returns exactly `max(price * rate, minimum)`, where the
sentinel `該当なし` ("none") is treated as a minimum of `0`. -/
theorem c1_flat_rate_fee (fs : FeeStructure) (price : ℚ) (category : String)
    (rule : FeeRule) (s : String) (rp m : ℚ)
    (_hprice : 0 ≤ price)
    (hsel : fs.fee_structure.find? (ruleMatches category) = some rule)
    (hflat : rule.fee_rate = .str s)
    (hrate : parseDecimal (stripChar '%' s) = some rp)
    (hmin : (rule.minimum_fee = "該当なし" ∧ m = 0) ∨
      (rule.minimum_fee ≠ "該当なし" ∧
        parseDecimal (removeAll '円' rule.minimum_fee) = some m)) :
    calculate_fees fs price category = .ok (max (price * (rp / 100)) m) := by
  unfold calculate_fees
  rw [hsel]
  exact ruleFee_flat price rule s rp m hflat hrate hmin

/-- Witness for C1: the spec's worked example, price 1000 against
`Electronics > Cameras` gives `max(1000 * 10%, 30) = 100`. -/
theorem c1_witness :
    0 ≤ (1000 : ℚ) ∧
      calculate_fees oneRuleFs 1000 "Electronics > Cameras" =
        .ok (max (1000 * ((10 : ℚ) / 100)) 30) :=
  ⟨by norm_num,
    c1_flat_rate_fee oneRuleFs 1000 "Electronics > Cameras"
      ⟨"Electronics", .str "10%", "30円"⟩ "10%" 10 30
      (by norm_num) (by with_unfolding_all rfl) rfl
      (by with_unfolding_all rfl)
      (Or.inr ⟨by decide, by with_unfolding_all rfl⟩)⟩

/-- C3: for every price ≥ 0 and every category string matching no rule of
the schedule (the empty category included), `calculate_fees` returns exactly
`max(price * defaultRate, defaultMinimumFee)`, whatever the non-matching
rules are. -/
theorem c3_default_path (fs : FeeStructure) (price : ℚ) (category : String)
    (dr dm : ℚ)
    (_hprice : 0 ≤ price)
    (hnone : ∀ r ∈ fs.fee_structure, ruleMatches category r = false)
    (hdr : parseDecimal (stripChar '%' fs.default_fee_rate) = some dr)
    (hdm : parseDecimal (removeAll '円' fs.default_minimum_fee) = some dm) :
    calculate_fees fs price category = .ok (max (price * (dr / 100)) dm) := by
  unfold calculate_fees
  rw [find?_of_forall_false _ _ hnone]
  show defaultFee fs price = _
  unfold defaultFee toDec
  rw [hdr, hdm]
  rfl

/-- Witness for C3: the empty category matches nothing, so price 200 pays
the default `max(200 * 10%, 30) = 30` (the spec's default-path scenario). -/
theorem c3_witness :
    0 ≤ (200 : ℚ) ∧
      calculate_fees oneRuleFs 200 "" =
        .ok (max (200 * ((10 : ℚ) / 100)) 30) :=
  ⟨by norm_num,
    c3_default_path oneRuleFs 200 "" 10 30 (by norm_num)
      (by
        intro r hr
        simp only [oneRuleFs, List.mem_singleton] at hr
        subst hr
        with_unfolding_all rfl)
      (by with_unfolding_all rfl) (by with_unfolding_all rfl)⟩

/-- C2: when a rule with a tiered rate is selected, tiers are scanned in
order and the first tier whose threshold condition holds against the price
determines the fee as `price * tier.rate` (before the minimum-fee floor);
when no tier's condition holds, resolution fails with the explicit
no-applicable-tier error instead of falling back to the default rate. -/
theorem c2_tiered_resolution (fs : FeeStructure) (category : String)
    (rule : FeeRule) (price : ℚ) (ts ts₁ ts₂ : List TierRaw) (t : TierRaw)
    (rp : ℚ) :
    (ts = ts₁ ++ t :: ts₂ →
      (∀ u ∈ ts₁, tierSkipsB price u = true) →
      tierAppliesB price t = true →
      parseDecimal (stripChar '%' t.rate) = some rp →
      _calculate_tiered_fee price ts = .ok (price * rp / 100)) ∧
    (fs.fee_structure.find? (ruleMatches category) = some rule →
      rule.fee_rate = .tiers ts →
      (∀ u ∈ ts, tierSkipsB price u = true) →
      calculate_fees fs price category = .error .noApplicableTier) := by
  constructor
  · intro hts h1 h2 h3
    subst hts
    induction ts₁ with
    | nil => simpa using tiered_apply_cons price t ts₂ rp h2 h3
    | cons u us ih =>
      rw [List.cons_append, tiered_skip_cons price u _ (h1 u (by simp))]
      exact ih fun v hv => h1 v (by simp [hv])
  · intro hsel htiers hall
    unfold calculate_fees
    rw [hsel]
    show ruleFee price rule = _
    unfold ruleFee
    rw [htiers]
    simp only [tiered_all_skip price ts hall]
    rfl

/-- Witness for C2, at the spec's scenario: tiers 8% up to 1000 yen and 15%
above, price 500 → fee 40; and the gap schedule (only a `1000円以下` tier) at
price 1500 → the no-applicable-tier error. -/
theorem c2_witness :
    _calculate_tiered_fee 500
        [⟨"1000円以下", "8%"⟩, ⟨"1000円を超える", "15%"⟩] =
      .ok (500 * 8 / 100) ∧
    calculate_fees gapFs 1500 "Books" = .error .noApplicableTier :=
  ⟨(c2_tiered_resolution gapFs "Books"
      ⟨"Books", .tiers [⟨"1000円以下", "8%"⟩], "該当なし"⟩ 500
      [⟨"1000円以下", "8%"⟩, ⟨"1000円を超える", "15%"⟩] []
      [⟨"1000円を超える", "15%"⟩] ⟨"1000円以下", "8%"⟩ 8).1
      rfl (by simp) (by with_unfolding_all rfl) (by with_unfolding_all rfl),
    (c2_tiered_resolution gapFs "Books"
      ⟨"Books", .tiers [⟨"1000円以下", "8%"⟩], "該当なし"⟩ 1500
      [⟨"1000円以下", "8%"⟩] [] [] ⟨"1000円以下", "8%"⟩ 8).2
      (by with_unfolding_all rfl) rfl
      (by
        intro u hu
        simp only [List.mem_singleton] at hu
        subst hu
        with_unfolding_all rfl)⟩

/-- Counterexample to C4 as stated: the rule `Electronics`, product category
`Elec`.  The product's lower-cased category `elec` is contained in the
rule's lower-cased category `electronics`, so the claimed bidirectional
matching would select the rule (fee `max(1000·10%, 0) = 100`); but the
code's one-directional test does not match, and the default 5% rate is
charged instead (fee 50). -/
theorem c4_counterexample :
    ruleMatches "Elec" ⟨"Electronics", .str "10%", "該当なし"⟩ = false ∧
    strContains "electronics" "elec" = true ∧
    calculate_fees revFs 1000 "Elec" = .ok 50 :=
  ⟨by with_unfolding_all rfl, by with_unfolding_all rfl,
    by with_unfolding_all rfl⟩

/-- C4 as amended: category matching is case-insensitive substring
containment in ONE direction only — the first rule whose lower-cased
category string is contained in the product's lower-cased category string is
selected (containment of the product's string in the rule's string does not
match, as the counterexample shows). -/
theorem c4_one_directional_match (fs : FeeStructure) (price : ℚ)
    (category : String) (rs₁ rs₂ : List FeeRule) (r : FeeRule)
    (hfs : fs.fee_structure = rs₁ ++ r :: rs₂)
    (h₁ : ∀ x ∈ rs₁, strContains category.toLower x.category.toLower = false)
    (h₂ : strContains category.toLower r.category.toLower = true) :
    calculate_fees fs price category = ruleFee price r := by
  unfold calculate_fees
  rw [hfs, find?_append_first (ruleMatches category) rs₁ rs₂ r
    (fun x hx => h₁ x hx) h₂]

/-- Witness for C4's amended theorem: `electronics` is contained in
`electronics > cameras`, so the rule is selected. -/
theorem c4_witness :
    calculate_fees oneRuleFs 1000 "Electronics > Cameras" =
      ruleFee 1000 ⟨"Electronics", .str "10%", "30円"⟩ :=
  c4_one_directional_match oneRuleFs 1000 "Electronics > Cameras" [] []
    ⟨"Electronics", .str "10%", "30円"⟩ rfl (by simp)
    (by with_unfolding_all rfl)

/-- C5: for every selling price, purchase price and fee computed by
`calculate_profit`, the identity
`profit + fees + purchasePrice = sellingPrice` holds exactly under the
decimal (rational) arithmetic of the model, for all inputs on which the
computation succeeds. -/
theorem c5_profit_roundtrip (fs : FeeStructure) (sp pp : ℚ)
    (category : String) (rep : ProfitReport)
    (h : calculate_profit fs sp pp category = .ok rep) :
    rep.profit + rep.fees + rep.purchase_price = rep.selling_price ∧
    rep.selling_price = sp ∧ rep.purchase_price = pp := by
  cases hfee : calculate_fees fs sp category with
  | error e =>
    rw [calculate_profit_err fs sp pp category e hfee] at h
    exact Except.noConfusion h
  | ok f =>
    rw [calculate_profit_ok fs sp pp category f hfee] at h
    cases Except.ok.inj h
    refine ⟨by ring, rfl, rfl⟩

/-- Witness for C5: selling 1000, purchase 500, fee 100, profit 400, and
indeed 400 + 100 + 500 = 1000. -/
theorem c5_witness :
    (⟨1000, 500, 100, 400, 40⟩ : ProfitReport).profit +
        (⟨1000, 500, 100, 400, 40⟩ : ProfitReport).fees +
        (⟨1000, 500, 100, 400, 40⟩ : ProfitReport).purchase_price =
      (⟨1000, 500, 100, 400, 40⟩ : ProfitReport).selling_price ∧
    (⟨1000, 500, 100, 400, 40⟩ : ProfitReport).selling_price = 1000 ∧
    (⟨1000, 500, 100, 400, 40⟩ : ProfitReport).purchase_price = 500 :=
  c5_profit_roundtrip oneRuleFs 1000 500 "Electronics"
    ⟨1000, 500, 100, 400, 40⟩ (by with_unfolding_all rfl)

/-- C6: `calculate_profit` with selling price 0 reports a profit margin of 0
(no division error is possible — the margin expression is guarded), and for
selling price > 0 the margin equals `round(profit / sellingPrice * 100, 2)`
(two decimal places, ties to even). -/
theorem c6_margin_boundary (fs : FeeStructure) (sp pp : ℚ)
    (category : String) (rep rep₀ : ProfitReport) :
    (calculate_profit fs 0 pp category = .ok rep₀ →
      rep₀.profit_margin = 0) ∧
    (0 < sp → calculate_profit fs sp pp category = .ok rep →
      rep.profit_margin = round2 (rep.profit / sp * 100)) := by
  constructor
  · intro h
    cases hfee : calculate_fees fs 0 category with
    | error e =>
      rw [calculate_profit_err fs 0 pp category e hfee] at h
      exact Except.noConfusion h
    | ok f =>
      rw [calculate_profit_ok fs 0 pp category f hfee] at h
      cases Except.ok.inj h
      simp
  · intro hsp h
    cases hfee : calculate_fees fs sp category with
    | error e =>
      rw [calculate_profit_err fs sp pp category e hfee] at h
      exact Except.noConfusion h
    | ok f =>
      rw [calculate_profit_ok fs sp pp category f hfee] at h
      cases Except.ok.inj h
      simp [hsp]

/-- Witness for C6: selling 0 (fees 30, profit −130) has margin 0; selling
1000 with profit 400 has margin `round2(400 / 1000 * 100) = 40`. -/
theorem c6_witness :
    (⟨0, 100, 30, -130, 0⟩ : ProfitReport).profit_margin = 0 ∧
    (⟨1000, 500, 100, 400, 40⟩ : ProfitReport).profit_margin =
      round2 ((⟨1000, 500, 100, 400, 40⟩ : ProfitReport).profit / 1000 * 100) :=
  ⟨(c6_margin_boundary oneRuleFs 1 100 "Electronics"
      ⟨0, 100, 30, -130, 0⟩ ⟨0, 100, 30, -130, 0⟩).1
      (by with_unfolding_all rfl),
    (c6_margin_boundary oneRuleFs 1000 500 "Electronics"
      ⟨1000, 500, 100, 400, 40⟩ ⟨0, 100, 30, -130, 0⟩).2
      (by norm_num) (by with_unfolding_all rfl)⟩

/-- Counterexample to C7 as stated: with an empty cache and a fetch that
yields zero product records, `process_product` returns the empty result
list — the input identifier is silently dropped, not reported as not
found. -/
theorem c7_counterexample :
    (process_product oneRuleFs (fun _ => none) (some []) "4901234567894"
        500).map Prod.fst = .ok [] := by
  with_unfolding_all rfl

/-- C7 as amended: `process_product` produces exactly one output record per
fetched (or cached) product record; in particular, when the fetch yields
zero records and the cache misses, the result list is empty and the
identifier does not appear in the output at all (only a warning is
logged). -/
theorem c7_one_record_per_fetched (fs : FeeStructure) (db : Db)
    (resp : Option (List RawApiProduct)) (jan : String) (pp : ℚ)
    (rs : List ProcResult) (db' : Db)
    (hmiss : get_product db jan = none)
    (hok : process_product fs db resp jan pp = .ok (rs, db')) :
    rs.length = (get_product_details resp).length := by
  simp only [process_product, hmiss] at hok
  cases hr : runAll (processOne fs jan pp)
      ((get_product_details resp).map RawProduct.dict) with
  | error e =>
    rw [hr] at hok
    exact Except.noConfusion hok
  | ok rs' =>
    rw [hr] at hok
    simp only [Except.map] at hok
    have hpair := Except.ok.inj hok
    simp only [Prod.mk.injEq] at hpair
    rw [← hpair.1]
    rw [runAll_length _ _ _ hr, List.length_map]

/-- Witness for C7's amended theorem: one fetched record with an
unavailable price yields exactly one (error) output record. -/
theorem c7_witness :
    ([ProcResult.errorNoPrice (extract_product_info rawNoPrice) 500]).length =
      (get_product_details (some [rawNoPrice])).length :=
  c7_one_record_per_fetched oneRuleFs (fun _ => none) (some [rawNoPrice])
    "4901234567894" 500
    [.errorNoPrice (extract_product_info rawNoPrice) 500]
    (cacheFetched (fun _ => none) "4901234567894"
      (get_product_details (some [rawNoPrice])))
    rfl (by with_unfolding_all rfl)

/-- C8 as amended: loading the fee schedule performs no validation beyond
JSON parsing — `load` succeeds on every structured policy document,
including one whose rate string is not a parseable percentage; the
malformed string instead raises an invalid-decimal error when
`calculate_fees` first parses it, at resolution time. -/
theorem c8_no_load_validation :
    (∀ doc : FeeStructure, load doc = .ok doc) ∧
    calculate_fees badRateFs 100 "Books" = .error (.invalidDecimal "abc") :=
  ⟨fun _ => rfl, by with_unfolding_all rfl⟩

/-- Counterexample to C8 as stated: `badRateFs` has the unparseable rate
string `abc%`, yet `load` accepts it (no malformed-policy error at load
time); the error only surfaces when a fee is resolved. -/
theorem c8_counterexample :
    load badRateFs = .ok badRateFs ∧
    parseDecimal (stripChar '%' "abc%") = none ∧
    calculate_fees badRateFs 100 "Books" = .error (.invalidDecimal "abc") :=
  ⟨rfl, by with_unfolding_all rfl, by with_unfolding_all rfl⟩

/-- C9: the cache lookup in `process_product` consults the bare key
`jan_code`, while the post-fetch writes store every variant under the
composite key `jan_code ++ "_" ++ asin`; hence when the bare key had no
entry before the call, `get_product jan_code` on the resulting database
still returns `none` — the writes are never observable by the lookup that
precedes fetching. -/
theorem c9_cache_key_asymmetry (fs : FeeStructure) (db : Db)
    (resp : Option (List RawApiProduct)) (jan : String) (pp : ℚ)
    (rs : List ProcResult) (db' : Db)
    (hmiss : get_product db jan = none)
    (hok : process_product fs db resp jan pp = .ok (rs, db')) :
    get_product db' jan = none := by
  simp only [process_product, hmiss] at hok
  cases hr : runAll (processOne fs jan pp)
      ((get_product_details resp).map RawProduct.dict) with
  | error e =>
    rw [hr] at hok
    exact Except.noConfusion hok
  | ok rs' =>
    rw [hr] at hok
    simp only [Except.map] at hok
    have hpair := Except.ok.inj hok
    simp only [Prod.mk.injEq] at hpair
    rw [← hpair.2, cacheFetched_bare_key]
    exact hmiss

/-- Witness for C9: after fetching and caching one product variant for a
fresh identifier, the bare-key lookup still misses. -/
theorem c9_witness :
    get_product
        (cacheFetched (fun _ => none) "4901234567894"
          (get_product_details (some [rawNoPrice]))) "4901234567894" =
      none :=
  c9_cache_key_asymmetry oneRuleFs (fun _ => none) (some [rawNoPrice])
    "4901234567894" 500
    [.errorNoPrice (extract_product_info rawNoPrice) 500]
    (cacheFetched (fun _ => none) "4901234567894"
      (get_product_details (some [rawNoPrice])))
    rfl (by with_unfolding_all rfl)

/-- C10: `get_current_price` returns `none` whenever the latest recorded
price value is non-positive (not only when the history is absent or too
short), and such a product is then reported with the price-unavailable
error record — which carries the purchase price — instead of entering the
profit calculation. -/
theorem c10_nonpositive_price_unavailable (fs : FeeStructure) (jan : String)
    (pp : ℚ) (raw : RawApiProduct) (row0 row1 : List Int)
    (rows : List (List Int)) (v : Int)
    (hcsv : raw.csv = some (row0 :: row1 :: rows))
    (hlast : row1.getLast? = some v) (hv : v ≤ 0) :
    get_current_price (raw.csv.getD []) = none ∧
    processOne fs jan pp (.dict (extract_product_info raw)) =
      .ok (.errorNoPrice (extract_product_info raw) pp) := by
  have hgcp : get_current_price (raw.csv.getD []) = none := by
    rw [hcsv]
    show (match row1.getLast? with
          | some current_price =>
            if 0 < current_price then some current_price else none
          | none => none) = none
    rw [hlast]
    simp [not_lt.mpr hv]
  exact ⟨hgcp, processOne_dict_noPrice fs jan pp (extract_product_info raw) hgcp⟩

/-- Witness for C10: a product whose price history ends in the value 0 is
price-unavailable and gets the error record carrying the purchase price. -/
theorem c10_witness :
    get_current_price (rawNoPrice.csv.getD []) = none ∧
    processOne oneRuleFs "4901234567894" 500
        (.dict (extract_product_info rawNoPrice)) =
      .ok (.errorNoPrice (extract_product_info rawNoPrice) 500) :=
  c10_nonpositive_price_unavailable oneRuleFs "4901234567894" 500 rawNoPrice
    [] [0] [] 0 (by with_unfolding_all rfl) rfl (by norm_num)

end AmazonCalc
